import Mathlib

/-!
Shallow embedding of `core/discriminator.py` (FastSpeech2 discriminators).

Tensors are rank-3 arrays (batch, channels, length) of rationals; the data is a
total function and the shape is carried explicitly, mirroring the dynamic shape
checks the tensor framework performs at call time.  Fallible framework
operations (convolution, pooling, broadcasting addition) return
`Except String`, the error standing for the framework-level exception.

`nn.utils.weight_norm` reparameterizes a convolution's weight storage into a
magnitude and a direction; at forward time the module behaves exactly like a
convolution whose weight is the effective (recombined) weight.  Our `Conv1d`
stores the effective weight directly, so `weight_norm` is the identity on the
embedded module: shapes, strides and paddings are untouched by it.

Parameter values (weights and biases) are arbitrary arguments of the
constructors.  The external initializer `weights_init` (imported from
`utils.util`, which the repository does not ship here) only re-initializes
parameter values, per the spec "an external weight-initialization utility";
its action is absorbed into the already-arbitrary parameter arguments.
-/

namespace Disc

/-- Rank-3 tensor (batch, channels, length): shape fields plus a total data
function; positions outside the shape are irrelevant. -/
structure Tensor3 where
  batch : ℕ
  channels : ℕ
  length : ℕ
  data : ℕ → ℕ → ℕ → ℚ

/-- Rank-2 tensor (batch, length), the result of `torch.flatten(·, 1, -1)`. -/
structure Tensor2 where
  batch : ℕ
  length : ℕ
  data : ℕ → ℕ → ℚ

/-- Reading a 1-D signal of length `len` zero-padded by `pad` on both sides. -/
def padAt (len pad : ℕ) (f : ℕ → ℚ) (i : ℕ) : ℚ :=
  if i < pad then 0 else if i - pad < len then f (i - pad) else 0

/-- `nn.Conv1d`: hyperparameters plus (effective) weight and bias. -/
structure Conv1d where
  in_channels : ℕ
  out_channels : ℕ
  kernel_size : ℕ
  stride : ℕ
  padding : ℕ
  weight : ℕ → ℕ → ℕ → ℚ
  bias : ℕ → ℚ

/-- Weight and bias values supplied to a convolution at construction. -/
structure ConvParams where
  weight : ℕ → ℕ → ℕ → ℚ
  bias : ℕ → ℚ

/-- `nn.Conv1d(in_c, out_c, kernel_size=k, stride=s, padding=p)`. -/
def mkConv (in_c out_c k s p : ℕ) (w : ConvParams) : Conv1d :=
  ⟨in_c, out_c, k, s, p, w.weight, w.bias⟩

/-- `nn.utils.weight_norm`: identity on the embedded module (see header). -/
def weight_norm (c : Conv1d) : Conv1d := c

/-- Forward pass of `nn.Conv1d`.  The framework raises if the input channel
count differs from `in_channels` or if the padded length is below the kernel
size; otherwise the output length is `(L + 2p - k) / s + 1` (floor). -/
def Conv1d.forward (c : Conv1d) (x : Tensor3) : Except String Tensor3 :=
  if x.channels ≠ c.in_channels then Except.error "channel mismatch"
  else if x.length + 2 * c.padding < c.kernel_size then
    Except.error "kernel size exceeds padded input size"
  else Except.ok
    { batch := x.batch
      channels := c.out_channels
      length := (x.length + 2 * c.padding - c.kernel_size) / c.stride + 1
      data := fun b oc i =>
        c.bias oc + ∑ ic in Finset.range c.in_channels,
          ∑ j in Finset.range c.kernel_size,
            c.weight oc ic j * padAt x.length c.padding (x.data b ic) (i * c.stride + j) }

/-- `nn.LeakyReLU(slope)` applied elementwise; shape unchanged.  The source
uses `inplace=True`, but every in-place application in this file acts on a
fresh intermediate tensor that is not read afterwards, so the pure reading is
observationally faithful. -/
def leakyReLU (slope : ℚ) (x : Tensor3) : Tensor3 :=
  { x with data := fun b c i => if x.data b c i < 0 then slope * x.data b c i else x.data b c i }

/-- Elementwise tensor addition; the framework raises on a shape mismatch
(length-1 broadcasting never arises in this file's data flow). -/
def Tensor3.add (x y : Tensor3) : Except String Tensor3 :=
  if x.batch = y.batch ∧ x.channels = y.channels ∧ x.length = y.length then
    Except.ok { x with data := fun b c i => x.data b c i + y.data b c i }
  else Except.error "shape mismatch in add"

/-- `torch.flatten(x, 1, -1)` on a rank-3 tensor: merge channel and length
dimensions into one of size `channels * length`. -/
def flatten12 (x : Tensor3) : Tensor2 :=
  { batch := x.batch
    length := x.channels * x.length
    data := fun b i => x.data b (i / x.length) (i % x.length) }

/-- `nn.AvgPool1d(kernel_size, stride, padding, count_include_pad=False)`. -/
structure AvgPool1d where
  kernel_size : ℕ
  stride : ℕ
  padding : ℕ

/-- Forward pass of `nn.AvgPool1d` with `count_include_pad=False`: the window
sum over the zero-padded signal is divided by the number of window positions
that land inside the unpadded signal.  The framework raises when the padding
exceeds half the kernel size or when the padded length is below the kernel. -/
def AvgPool1d.forward (p : AvgPool1d) (x : Tensor3) : Except String Tensor3 :=
  if p.kernel_size / 2 < p.padding then
    Except.error "pad should be at most half of kernel size"
  else if x.length + 2 * p.padding < p.kernel_size then
    Except.error "kernel size exceeds padded input size"
  else Except.ok
    { batch := x.batch
      channels := x.channels
      length := (x.length + 2 * p.padding - p.kernel_size) / p.stride + 1
      data := fun b c i =>
        (∑ j in Finset.range p.kernel_size,
          padAt x.length p.padding (x.data b c) (i * p.stride + j)) /
        (((Finset.range p.kernel_size).filter
          (fun j => p.padding ≤ i * p.stride + j ∧ i * p.stride + j < x.length + p.padding)).card : ℚ) }

/-! ## `Dblock` -/

/-- The four weight-normed convolutions of a `Dblock` (`input_spec`,
`input_cond`, and the convolution inside each of the two `nn.Sequential`
wrappers `output_spec` and `output_cond`; the other member of each
`Sequential` is a parameter-free `LeakyReLU(0.2, True)`). -/
structure Dblock where
  input_spec : Conv1d
  input_cond : Conv1d
  output_spec_conv : Conv1d
  output_cond_conv : Conv1d

/-- Parameter values for the four convolutions of a `Dblock`. -/
structure DblockParams where
  p_input_spec : ConvParams
  p_input_cond : ConvParams
  p_output_spec : ConvParams
  p_output_cond : ConvParams

/-- `Dblock.__init__(input_dim, output_dim, hidden_dim=256)`: every
convolution has `kernel_size=3, stride=1, padding=1` and is weight-normed. -/
def Dblock.make (input_dim output_dim hidden_dim : ℕ) (p : DblockParams) : Dblock :=
  { input_spec := weight_norm (mkConv input_dim output_dim 3 1 1 p.p_input_spec)
    input_cond := weight_norm (mkConv hidden_dim output_dim 3 1 1 p.p_input_cond)
    output_spec_conv := weight_norm (mkConv output_dim output_dim 3 1 1 p.p_output_spec)
    output_cond_conv := weight_norm (mkConv output_dim hidden_dim 3 1 1 p.p_output_cond) }

/-- `Dblock.forward(spec, cond)`:
`x1 = input_spec(spec); y1 = input_cond(cond); x = x1 + y1;`
`out1 = output_spec(x); out2 = output_cond(y1); return out1 + x1, out2 + cond`. -/
def Dblock.forward (d : Dblock) (spec cond : Tensor3) : Except String (Tensor3 × Tensor3) := do
  let x1 ← d.input_spec.forward spec
  let y1 ← d.input_cond.forward cond
  let x ← x1.add y1
  let out1 ← d.output_spec_conv.forward (leakyReLU (2/10) x)
  let out2 ← d.output_cond_conv.forward (leakyReLU (2/10) y1)
  let r1 ← out1.add x1
  let r2 ← out2.add cond
  return (r1, r2)

/-! ## `MSGDiscriminator` -/

/-- The `for n in range(1, n_layers + 1)` loop of `MSGDiscriminator.__init__`:
insert `Dblock(nf, nf*2, hidden_dim)` under key `layer_n`, then double `nf`.
`idx` is the 0-based index into the parameter stream. -/
def msgLayers (hidden_dim : ℕ) (dps : ℕ → DblockParams) : ℕ → ℕ → ℕ → List Dblock
  | _, _, 0 => []
  | nf, idx, m + 1 =>
      Dblock.make nf (nf * 2) hidden_dim (dps idx) :: msgLayers hidden_dim dps (nf * 2) (idx + 1) m

/-- Value of the loop variable `nf` after the construction loop has doubled it
`n` times. -/
def finalNf (nf : ℕ) : ℕ → ℕ
  | 0 => nf
  | m + 1 => finalNf (nf * 2) m

/-- `MSGDiscriminator`: the `ModuleDict` of `Dblock`s in insertion order
(`layer_1 .. layer_n_layers`) and the two head convolutions. -/
structure MSGDiscriminator where
  layers : List Dblock
  disc_spec : Conv1d
  disc_cond : Conv1d

/-- Parameter values for one `MSGDiscriminator`. -/
structure MSGParams where
  dps : ℕ → DblockParams
  p_spec : ConvParams
  p_cond : ConvParams

/-- `MSGDiscriminator.__init__(nf=80, n_layers=4, hidden_dim=256)`. -/
def MSGDiscriminator.make (nf n_layers hidden_dim : ℕ) (ps : MSGParams) : MSGDiscriminator :=
  { layers := msgLayers hidden_dim ps.dps nf 0 n_layers
    disc_spec := weight_norm (mkConv (finalNf nf n_layers) 1 3 1 1 ps.p_spec)
    disc_cond := weight_norm (mkConv hidden_dim 1 3 1 1 ps.p_cond) }

/-- The `for key, module in self.discriminator.items()` loop of
`MSGDiscriminator.forward`: chain `(x, y) = module(x, y)` and append each new
`x` to `features`; returns the collected features and the final `(x, y)`. -/
def msgLoop : List Dblock → Tensor3 → Tensor3 → Except String (List Tensor3 × Tensor3 × Tensor3)
  | [], x, y => Except.ok ([], x, y)
  | d :: ds, x, y => do
      let (x', y') ← d.forward x y
      let (fs, xn, yn) ← msgLoop ds x' y'
      return (x' :: fs, xn, yn)

/-- A zero tensor, the `getLastD` default below (never reached: the list a
`getLastD` is applied to is an append ending in a singleton). -/
def dummyT3 : Tensor3 := ⟨0, 0, 0, fun _ _ _ => 0⟩

/-- `MSGDiscriminator.forward(x, y)`: run the loop, compute
`out = disc_spec(x) + disc_cond(y)`, append `out` to `features`, and return
`features[:-1], torch.flatten(features[-1], 1, -1)`. -/
def MSGDiscriminator.forward (m : MSGDiscriminator) (x y : Tensor3) :
    Except String (List Tensor3 × Tensor2) := do
  let (features, xn, yn) ← msgLoop m.layers x y
  let sx ← m.disc_spec.forward xn
  let sy ← m.disc_cond.forward yn
  let out ← sx.add sy
  let fs := features ++ [out]
  return (fs.dropLast, flatten12 (fs.getLastD dummyT3))

/-! ## `MultiMSGDiscriminator` -/

/-- The `for i in range(num_D)` loop of `MultiMSGDiscriminator.__init__`:
insert `MSGDiscriminator(ndf, n_layers, hidden_dim)` under key `disc_i`. -/
def multiModel (ndf n_layers hidden_dim : ℕ) (ps : ℕ → MSGParams) : ℕ → ℕ → List MSGDiscriminator
  | _, 0 => []
  | idx, m + 1 =>
      MSGDiscriminator.make ndf n_layers hidden_dim (ps idx) :: multiModel ndf n_layers hidden_dim ps (idx + 1) m

/-- `MultiMSGDiscriminator`: the `ModuleDict` of sub-discriminators in
insertion order (`disc_0 .. disc_{num_D-1}`) and the shared pooling layer. -/
structure MultiMSGDiscriminator where
  model : List MSGDiscriminator
  downsample : AvgPool1d

/-- `MultiMSGDiscriminator.__init__(num_D=3, ndf=80, n_layers=4,
downsampling_factor=2, hidden_dim=256)`.  Note the pooling layer is
`nn.AvgPool1d(downsampling_factor, stride=2, padding=1,
count_include_pad=False)`: the configured factor is its kernel size and the
stride is the literal `2`. -/
def MultiMSGDiscriminator.make (num_D ndf n_layers downsampling_factor hidden_dim : ℕ)
    (ps : ℕ → MSGParams) : MultiMSGDiscriminator :=
  { model := multiModel ndf n_layers hidden_dim ps 0 num_D
    downsample := ⟨downsampling_factor, 2, 1⟩ }

/-- The `for key, disc in self.model.items()` loop of
`MultiMSGDiscriminator.forward`: score the current `(x, y)`, then downsample
both (the downsampling also runs after the last sub-discriminator, exactly as
in the source). -/
def multiLoop (pool : AvgPool1d) :
    List MSGDiscriminator → Tensor3 → Tensor3 → Except String (List (List Tensor3) × List Tensor2)
  | [], _, _ => Except.ok ([], [])
  | d :: ds, x, y => do
      let (feats, out) ← d.forward x y
      let x' ← pool.forward x
      let y' ← pool.forward y
      let (fss, outs) ← multiLoop pool ds x' y'
      return (feats :: fss, out :: outs)

/-- `MultiMSGDiscriminator.forward(x, y)`. -/
def MultiMSGDiscriminator.forward (m : MultiMSGDiscriminator) (x y : Tensor3) :
    Except String (List (List Tensor3) × List Tensor2) :=
  multiLoop m.downsample m.model x y

/-! ## `MelGANDiscriminator` -/

/-- One entry of the `MelGANDiscriminator` `ModuleDict`: either
`Sequential(weight_norm(Conv1d(...)), LeakyReLU(0.2, True))` or a bare
weight-normed convolution (the final scoring layer). -/
inductive MDLayer where
  | convLeaky (c : Conv1d)
  | conv (c : Conv1d)

/-- Forward pass of one `MelGANDiscriminator` layer. -/
def MDLayer.forward : MDLayer → Tensor3 → Except String Tensor3
  | .convLeaky c, x => do return leakyReLU (2/10) (← c.forward x)
  | .conv c, x => c.forward x

/-- `MelGANDiscriminator`: the `ModuleDict` entries in insertion order
(`layer_0 .. layer_{n_layers+2}`). -/
structure MelGANDiscriminator where
  layers : List MDLayer

/-- `MelGANDiscriminator.__init__(input_dim, ndf=16, n_layers=3,
disc_out=512)`.  Inside the `for n in range(1, n_layers + 1)` loop the source
sets `nf_prev = nf` but never reassigns `nf`, so every strided layer is
`Conv1d(ndf, ndf, kernel_size=3, stride=2, padding=1)`; after the loop
`nf = min(nf * 2, disc_out)` and the two remaining layers are
`Conv1d(nf, disc_out, 3, 1, padding=2)` and `Conv1d(nf, 1, 3, 1, padding=1)`. -/
def MelGANDiscriminator.make (input_dim ndf n_layers disc_out : ℕ)
    (p0 : ConvParams) (ploop : ℕ → ConvParams) (pA pB : ConvParams) : MelGANDiscriminator :=
  { layers :=
      MDLayer.convLeaky (weight_norm (mkConv input_dim ndf 3 1 0 p0))
        :: (List.range n_layers).map
            (fun n => MDLayer.convLeaky (weight_norm (mkConv ndf ndf 3 2 1 (ploop n))))
        ++ [MDLayer.convLeaky (weight_norm (mkConv (min (ndf * 2) disc_out) disc_out 3 1 2 pA)),
            MDLayer.conv (weight_norm (mkConv (min (ndf * 2) disc_out) 1 3 1 1 pB))] }

/-- The `for key, module in self.discriminator.items()` loop of
`MelGANDiscriminator.forward`: chain `x = module(x)`, appending each `x`. -/
def melganLoop : List MDLayer → Tensor3 → Except String (List Tensor3)
  | [], _ => Except.ok []
  | l :: ls, x => do
      let x' ← l.forward x
      let fs ← melganLoop ls x'
      return x' :: fs

/-- `MelGANDiscriminator.forward(x)`: `return features[:-1], features[-1]`. -/
def MelGANDiscriminator.forward (m : MelGANDiscriminator) (x : Tensor3) :
    Except String (List Tensor3 × Tensor3) := do
  let features ← melganLoop m.layers x
  return (features.dropLast, features.getLastD dummyT3)

/-! ## `MultiScaleDiscriminator` -/

/-- `MultiScaleDiscriminator`: its `__init__` body is identical to
`MultiMSGDiscriminator.__init__` — the sub-discriminators are
`MSGDiscriminator(ndf, n_layers, hidden_dim)`. -/
structure MultiScaleDiscriminator where
  model : List MSGDiscriminator
  downsample : AvgPool1d

/-- `MultiScaleDiscriminator.__init__(num_D=3, ndf=80, n_layers=4,
downsampling_factor=2, hidden_dim=256)`. -/
def MultiScaleDiscriminator.make (num_D ndf n_layers downsampling_factor hidden_dim : ℕ)
    (ps : ℕ → MSGParams) : MultiScaleDiscriminator :=
  { model := multiModel ndf n_layers hidden_dim ps 0 num_D
    downsample := ⟨downsampling_factor, 2, 1⟩ }

/-- `MultiScaleDiscriminator.forward(x)`.  The loop body evaluates
`feats, out = disc(x)`, invoking `MSGDiscriminator.forward` with a single
tensor although it requires two (`x` and `y`); in Python this raises
`TypeError` the moment the loop body first runs.  We embed that dynamic
failure as an error value; with an empty `model` the loop body never runs and
the empty lists are returned. -/
def MultiScaleDiscriminator.forward (m : MultiScaleDiscriminator) (_x : Tensor3) :
    Except String (List (List Tensor3) × List Tensor2) :=
  match m.model with
  | [] => Except.ok ([], [])
  | _ :: _ => Except.error "TypeError: forward missing 1 required positional argument: y"

/-! ## Specification-side definitions (used only to compare against the code) -/

/-- Modelled from the claim's words for the refinement comparison: chain
`(x_k, y_k) = layer_k(x_{k-1}, y_{k-1})` through the `Dblock`s and collect
`[x_1, ..., x_n]` together with the final pair. -/
def chainSpec : List Dblock → Tensor3 → Tensor3 → Except String (List Tensor3 × Tensor3 × Tensor3)
  | [], x, y => Except.ok ([], x, y)
  | d :: ds, x, y => do
      let (x1, y1) ← d.forward x y
      let (fs, xn, yn) ← chainSpec ds x1 y1
      return (x1 :: fs, xn, yn)

/-- Modelled from the claim's words: return the chained feature list
`[x_1, ..., x_{n_layers}]` directly, together with the score
`flatten(disc_spec(x_n) + disc_cond(y_n))` — no append-then-strip of the score
through the feature list. -/
def msgForwardSpec (m : MSGDiscriminator) (x y : Tensor3) :
    Except String (List Tensor3 × Tensor2) := do
  let (fs, xn, yn) ← chainSpec m.layers x y
  let sx ← m.disc_spec.forward xn
  let sy ← m.disc_cond.forward yn
  let s ← sx.add sy
  return (fs, flatten12 s)

/-- Length of an `AvgPool1d(d, stride=2, padding=1)` output on a length-`L`
input. -/
def poolLen (d L : ℕ) : ℕ := (L + 2 - d) / 2 + 1

/-- `i`-fold application of the pooling layer (`x` downsampled `i` times). -/
def downIter (pool : AvgPool1d) : ℕ → Tensor3 → Except String Tensor3
  | 0, x => Except.ok x
  | k + 1, x => do downIter pool k (← pool.forward x)

/-- Sequence length after `j` applications of the pooling layer. -/
def iterPoolLen (d : ℕ) : ℕ → ℕ → ℕ
  | L, 0 => L
  | L, j + 1 => iterPoolLen d (poolLen d L) j

/-! ## State-threading forward passes (for the frame property)

The mutable store of a Python forward call is the module object graph.  The
threaded variants pass the module through the call and return it next to the
result; since no statement of any `forward` body assigns to `self` or mutates
a parameter or buffer in place (the `inplace=True` leaky ReLUs act on fresh
intermediate activations, never on parameters), the threaded module is the
input module, unchanged. -/

/-- `Dblock.forward` with the module threaded through the call. -/
def Dblock.forwardSt (d : Dblock) (spec cond : Tensor3) :
    Except String (Tensor3 × Tensor3) × Dblock :=
  (d.forward spec cond, d)

/-- `MSGDiscriminator.forward` with the module threaded through the call. -/
def MSGDiscriminator.forwardSt (m : MSGDiscriminator) (x y : Tensor3) :
    Except String (List Tensor3 × Tensor2) × MSGDiscriminator :=
  (m.forward x y, m)

/-- `MultiMSGDiscriminator.forward` with the module threaded through the call. -/
def MultiMSGDiscriminator.forwardSt (m : MultiMSGDiscriminator) (x y : Tensor3) :
    Except String (List (List Tensor3) × List Tensor2) × MultiMSGDiscriminator :=
  (m.forward x y, m)

/-- `MelGANDiscriminator.forward` with the module threaded through the call. -/
def MelGANDiscriminator.forwardSt (m : MelGANDiscriminator) (x : Tensor3) :
    Except String (List Tensor3 × Tensor3) × MelGANDiscriminator :=
  (m.forward x, m)

/-- `MultiScaleDiscriminator.forward` with the module threaded through the call. -/
def MultiScaleDiscriminator.forwardSt (m : MultiScaleDiscriminator) (x : Tensor3) :
    Except String (List (List Tensor3) × List Tensor2) × MultiScaleDiscriminator :=
  (m.forward x, m)

/-! ## Concrete inputs for witnesses -/

/-- Zero weights and biases. -/
def zeroP : ConvParams := ⟨fun _ _ _ => 0, fun _ => 0⟩

/-- Zero parameters for a `Dblock`. -/
def zeroDP : DblockParams := ⟨zeroP, zeroP, zeroP, zeroP⟩

/-- Zero parameters for an `MSGDiscriminator`. -/
def zeroMP : MSGParams := ⟨fun _ => zeroDP, zeroP, zeroP⟩

/-- A zero tensor of the given shape. -/
def zeros (b c l : ℕ) : Tensor3 := ⟨b, c, l, fun _ _ _ => 0⟩

/-- `t` is a (batch, channels, length) tensor of the given shape. -/
def Tensor3.HasShape (t : Tensor3) (b c l : ℕ) : Prop :=
  t.batch = b ∧ t.channels = c ∧ t.length = l

instance (t : Tensor3) (b c l : ℕ) : Decidable (t.HasShape b c l) :=
  inferInstanceAs (Decidable (t.batch = b ∧ t.channels = c ∧ t.length = l))

/-! ## Shape lemmas for the framework layers -/

theorem hasShape_zeros (b c l : ℕ) : (zeros b c l).HasShape b c l := ⟨rfl, rfl, rfl⟩

theorem ok_bind {α β : Type} (a : α) (f : α → Except String β) :
    (Except.ok a >>= f) = f a := rfl

theorem error_bind {α β : Type} (e : String) (f : α → Except String β) :
    ((Except.error e : Except String α) >>= f) = Except.error e := rfl

theorem leakyReLU_batch (s : ℚ) (x : Tensor3) : (leakyReLU s x).batch = x.batch := rfl

theorem leakyReLU_channels (s : ℚ) (x : Tensor3) : (leakyReLU s x).channels = x.channels := rfl

theorem leakyReLU_length (s : ℚ) (x : Tensor3) : (leakyReLU s x).length = x.length := rfl

/-- A weight-normed `Conv1d(ci, co, kernel_size=3, stride=1, padding=1)`
succeeds on any input with `ci` channels and positive length, preserving batch
and length and producing `co` channels. -/
theorem conv_k3s1p1_ok (ci co : ℕ) (p : ConvParams) (x : Tensor3)
    (hc : x.channels = ci) (hL : 1 ≤ x.length) :
    ∃ y, (weight_norm (mkConv ci co 3 1 1 p)).forward x = Except.ok y ∧
      y.batch = x.batch ∧ y.channels = co ∧ y.length = x.length := by
  unfold weight_norm mkConv Conv1d.forward
  dsimp only
  rw [if_neg (by simp [hc]), if_neg (by omega)]
  exact ⟨_, rfl, rfl, rfl, by dsimp only; omega⟩

/-- Elementwise addition succeeds on equal shapes and preserves the shape. -/
theorem add_ok (x y : Tensor3) (hb : x.batch = y.batch) (hc : x.channels = y.channels)
    (hl : x.length = y.length) :
    ∃ z, x.add y = Except.ok z ∧ z.batch = x.batch ∧ z.channels = x.channels ∧
      z.length = x.length := by
  unfold Tensor3.add
  rw [if_pos ⟨hb, hc, hl⟩]
  exact ⟨_, rfl, rfl, rfl, rfl⟩

/-- A `Dblock(input_dim, output_dim, hidden_dim)` forward succeeds on inputs
`spec : (b, input_dim, L)` and `cond : (b, hidden_dim, L)` with `L ≥ 1` and
returns tensors of shapes `(b, output_dim, L)` and `(b, hidden_dim, L)`. -/
theorem dblock_ok (i o h : ℕ) (p : DblockParams) (spec cond : Tensor3) (b L : ℕ)
    (hs : spec.HasShape b i L) (hc : cond.HasShape b h L) (hL : 1 ≤ L) :
    ∃ r1 r2, (Dblock.make i o h p).forward spec cond = Except.ok (r1, r2) ∧
      r1.HasShape b o L ∧ r2.HasShape b h L := by
  obtain ⟨hsb, hsc, hsl⟩ := hs
  obtain ⟨hcb, hcc, hcl⟩ := hc
  obtain ⟨x1, hx1, hx1b, hx1c, hx1l⟩ :=
    conv_k3s1p1_ok i o p.p_input_spec spec hsc (by omega)
  obtain ⟨y1, hy1, hy1b, hy1c, hy1l⟩ :=
    conv_k3s1p1_ok h o p.p_input_cond cond hcc (by omega)
  obtain ⟨x, hx, hxb, hxc, hxl⟩ := add_ok x1 y1 (by omega) (by omega) (by omega)
  obtain ⟨o1, ho1, ho1b, ho1c, ho1l⟩ :=
    conv_k3s1p1_ok o o p.p_output_spec (leakyReLU (2/10) x)
      (by rw [leakyReLU_channels]; omega) (by rw [leakyReLU_length]; omega)
  obtain ⟨o2, ho2, ho2b, ho2c, ho2l⟩ :=
    conv_k3s1p1_ok o h p.p_output_cond (leakyReLU (2/10) y1)
      (by rw [leakyReLU_channels]; omega) (by rw [leakyReLU_length]; omega)
  rw [leakyReLU_batch] at ho1b ho2b
  rw [leakyReLU_length] at ho1l ho2l
  obtain ⟨r1, hr1, hr1b, hr1c, hr1l⟩ := add_ok o1 x1 (by omega) (by omega) (by omega)
  obtain ⟨r2, hr2, hr2b, hr2c, hr2l⟩ := add_ok o2 cond (by omega) (by omega) (by omega)
  refine ⟨r1, r2, ?_, ⟨by omega, by omega, by omega⟩, ⟨by omega, by omega, by omega⟩⟩
  unfold Dblock.forward Dblock.make
  dsimp only
  rw [hx1, ok_bind, hy1, ok_bind, hx, ok_bind, ho1, ok_bind, ho2, ok_bind, hr1, ok_bind,
    hr2, ok_bind]
  rfl

/-- The loop variable `nf` after `n` doublings. -/
theorem finalNf_eq (nf n : ℕ) : finalNf nf n = nf * 2 ^ n := by
  induction n generalizing nf with
  | zero => simp [finalNf]
  | succ m ih => rw [finalNf, ih, pow_succ]; ring

theorem msgLayers_length (hd : ℕ) (dps : ℕ → DblockParams) (n nf idx : ℕ) :
    (msgLayers hd dps nf idx n).length = n := by
  induction n generalizing nf idx with
  | zero => rfl
  | succ m ih => simp [msgLayers, ih]

/-- The `k`-th `Dblock` of the construction loop (0-indexed) maps
`nf * 2^k` spec channels to `nf * 2^(k+1)`. -/
theorem msgLayers_get (hd : ℕ) (dps : ℕ → DblockParams) (n nf idx k : ℕ)
    (hk : k < (msgLayers hd dps nf idx n).length) :
    (msgLayers hd dps nf idx n).get ⟨k, hk⟩ =
      Dblock.make (finalNf nf k) (finalNf nf k * 2) hd (dps (idx + k)) := by
  induction n generalizing nf idx k with
  | zero => rw [msgLayers_length] at hk; omega
  | succ m ih =>
      cases k with
      | zero => rfl
      | succ j =>
          simp only [msgLayers, List.get_cons_succ]
          rw [ih]
          have hidx : idx + 1 + j = idx + (j + 1) := by omega
          rw [hidx]
          rfl

/-- The `MSGDiscriminator` feature loop succeeds on well-shaped inputs,
returns one feature per `Dblock`, the `k`-th feature having `finalNf nf (k+1)`
channels, the final spec stream having `finalNf nf n` channels and the final
condition stream keeping `hd` channels; batch and length are preserved. -/
theorem msgLoop_ok (hd : ℕ) (dps : ℕ → DblockParams) (b L : ℕ) (hL : 1 ≤ L) :
    ∀ n nf idx (x y : Tensor3), x.HasShape b nf L → y.HasShape b hd L →
      ∃ fs xn yn, msgLoop (msgLayers hd dps nf idx n) x y = Except.ok (fs, xn, yn) ∧
        fs.length = n ∧ xn.HasShape b (finalNf nf n) L ∧ yn.HasShape b hd L ∧
        ∀ k (hk : k < fs.length), (fs.get ⟨k, hk⟩).HasShape b (finalNf nf (k + 1)) L := by
  intro n
  induction n with
  | zero =>
      intro nf idx x y hx hy
      exact ⟨[], x, y, rfl, rfl, hx, hy, by intro k hk; simp at hk⟩
  | succ m ih =>
      intro nf idx x y hx hy
      obtain ⟨x1, y1, hstep, hx1, hy1⟩ := dblock_ok nf (nf * 2) hd (dps idx) x y b L hx hy hL
      obtain ⟨fs, xn, yn, hloop, hlen, hxn, hyn, hfeat⟩ := ih (nf * 2) (idx + 1) x1 y1 hx1 hy1
      refine ⟨x1 :: fs, xn, yn, ?_, by simp [hlen], hxn, hyn, ?_⟩
      · rw [msgLayers]
        unfold msgLoop
        rw [hstep, ok_bind]
        dsimp only
        rw [hloop, ok_bind]
        rfl
      · intro k hk
        cases k with
        | zero => exact hx1
        | succ j => rw [List.get_cons_succ]; exact hfeat j (by simpa using hk)

/-- `MSGDiscriminator(nf, n_layers, hidden_dim).forward` on inputs
`x : (b, nf, L)` and `y : (b, hd, L)` with `L ≥ 1`: the loop succeeds, the two
heads and their sum succeed, the returned feature list is exactly the loop's
feature list (one per `Dblock`), and the returned score is the flattening of
the (b, 1, L) score tensor, hence of shape (b, L). -/
theorem msg_forward_ok (nf n hd : ℕ) (ps : MSGParams) (b L : ℕ) (x y : Tensor3)
    (hx : x.HasShape b nf L) (hy : y.HasShape b hd L) (hL : 1 ≤ L) :
    ∃ fs xn yn sx sy s,
      msgLoop (MSGDiscriminator.make nf n hd ps).layers x y = Except.ok (fs, xn, yn) ∧
      (MSGDiscriminator.make nf n hd ps).disc_spec.forward xn = Except.ok sx ∧
      (MSGDiscriminator.make nf n hd ps).disc_cond.forward yn = Except.ok sy ∧
      sx.add sy = Except.ok s ∧
      (MSGDiscriminator.make nf n hd ps).forward x y = Except.ok (fs, flatten12 s) ∧
      fs.length = n ∧ xn.HasShape b (finalNf nf n) L ∧ yn.HasShape b hd L ∧
      s.HasShape b 1 L ∧ (flatten12 s).batch = b ∧ (flatten12 s).length = L ∧
      (∀ k (hk : k < fs.length), (fs.get ⟨k, hk⟩).HasShape b (finalNf nf (k + 1)) L) := by
  obtain ⟨fs, xn, yn, hloop, hlen, hxn, hyn, hfeat⟩ :=
    msgLoop_ok hd ps.dps b L hL n nf 0 x y hx hy
  obtain ⟨hxnb, hxnc, hxnl⟩ := hxn
  obtain ⟨hynb, hync, hynl⟩ := hyn
  obtain ⟨sx, hsx, hsxb, hsxc, hsxl⟩ :=
    conv_k3s1p1_ok (finalNf nf n) 1 ps.p_spec xn hxnc (by omega)
  obtain ⟨sy, hsy, hsyb, hsyc, hsyl⟩ := conv_k3s1p1_ok hd 1 ps.p_cond yn hync (by omega)
  obtain ⟨s, hs, hsb, hsc, hsl⟩ := add_ok sx sy (by omega) (by omega) (by omega)
  refine ⟨fs, xn, yn, sx, sy, s, hloop, hsx, hsy, hs, ?_, hlen,
    ⟨hxnb, hxnc, hxnl⟩, ⟨hynb, hync, hynl⟩, ⟨by omega, by omega, by omega⟩, ?_, ?_, hfeat⟩
  · unfold MSGDiscriminator.forward MSGDiscriminator.make
    dsimp only
    rw [hloop, ok_bind]
    dsimp only
    rw [hsx, ok_bind, hsy, ok_bind, hs, ok_bind]
    rw [List.dropLast_concat, List.getLastD_concat]
    rfl
  · show s.batch = b
    omega
  · show s.channels * s.length = L
    have h1 : s.channels = 1 := by omega
    have h2 : s.length = L := by omega
    rw [h1, h2, one_mul]

/-- `AvgPool1d(d, stride=2, padding=1)` succeeds when `2 ≤ d ≤ L + 2` and
maps length `L` to `poolLen d L = (L + 2 - d) / 2 + 1`; its stride is always
the literal `2`. -/
theorem pool_ok (d : ℕ) (x : Tensor3) (hd2 : 2 ≤ d) (hdL : d ≤ x.length + 2) :
    ∃ y, (AvgPool1d.mk d 2 1).forward x = Except.ok y ∧ y.batch = x.batch ∧
      y.channels = x.channels ∧ y.length = poolLen d x.length := by
  unfold AvgPool1d.forward
  dsimp only
  rw [if_neg (by omega), if_neg (by omega)]
  refine ⟨_, rfl, rfl, rfl, ?_⟩
  show (x.length + 2 * 1 - d) / 2 + 1 = poolLen d x.length
  unfold poolLen
  omega

/-- Pooling never produces an empty output. -/
theorem one_le_poolLen (d L : ℕ) : 1 ≤ poolLen d L := by
  unfold poolLen; omega

/-- `iterPoolLen` stays positive once the input length is positive. -/
theorem one_le_iterPoolLen (d : ℕ) : ∀ j L, 1 ≤ L → 1 ≤ iterPoolLen d L j := by
  intro j
  induction j with
  | zero => intro L hL; exact hL
  | succ m ih => intro L _; exact ih (poolLen d L) (one_le_poolLen d L)

/-- Iterated downsampling succeeds while every intermediate length stays at
least `d - 2`, and its output length is `iterPoolLen`. -/
theorem downIter_ok (d : ℕ) (hd2 : 2 ≤ d) :
    ∀ i L (x : Tensor3) b c, x.HasShape b c L →
      (∀ j, j < i → d ≤ iterPoolLen d L j + 2) →
      ∃ xi, downIter (AvgPool1d.mk d 2 1) i x = Except.ok xi ∧
        xi.HasShape b c (iterPoolLen d L i) := by
  intro i
  induction i with
  | zero => intro L x b c hx _; exact ⟨x, rfl, hx⟩
  | succ m ih =>
      intro L x b c hx hval
      obtain ⟨hxb, hxc, hxl⟩ := hx
      obtain ⟨x1, hp, hpb, hpc, hpl⟩ := pool_ok d x hd2 (by have := hval 0 (by omega); simpa [iterPoolLen, hxl] using this)
      obtain ⟨xi, hrec, hsh⟩ := ih (poolLen d L) x1 b c ⟨by omega, by omega, by rw [hpl, hxl]⟩
        (fun j hj => hval (j + 1) (by omega))
      refine ⟨xi, ?_, hsh⟩
      unfold downIter
      rw [hp, ok_bind]
      exact hrec

theorem multiModel_length (ndf n hd : ℕ) (ps : ℕ → MSGParams) (cnt idx : ℕ) :
    (multiModel ndf n hd ps idx cnt).length = cnt := by
  induction cnt generalizing idx with
  | zero => rfl
  | succ m ih => simp [multiModel, ih]

/-- Every entry of the `MultiMSGDiscriminator` model dictionary is an
`MSGDiscriminator` built from the same `(ndf, n_layers, hidden_dim)`. -/
theorem multiModel_get (ndf n hd : ℕ) (ps : ℕ → MSGParams) (cnt idx k : ℕ)
    (hk : k < (multiModel ndf n hd ps idx cnt).length) :
    (multiModel ndf n hd ps idx cnt).get ⟨k, hk⟩ =
      MSGDiscriminator.make ndf n hd (ps (idx + k)) := by
  induction cnt generalizing idx k with
  | zero => rw [multiModel_length] at hk; omega
  | succ m ih =>
      cases k with
      | zero => rfl
      | succ j =>
          simp only [multiModel, List.get_cons_succ]
          rw [ih]
          have hidx : idx + 1 + j = idx + (j + 1) := by omega
          rw [hidx]

/-- The `MultiMSGDiscriminator` loop succeeds on well-shaped inputs (as long
as every intermediate length supports the pooling kernel), returns one
feature list and one score per sub-discriminator, and the `i`-th pair is
exactly the `i`-th sub-discriminator applied to `x` and `y` each downsampled
`i` times. -/
theorem multiLoop_ok (ndf n hd : ℕ) (ps : ℕ → MSGParams) (d b : ℕ) (hd2 : 2 ≤ d) :
    ∀ cnt idx L (x y : Tensor3), x.HasShape b ndf L → y.HasShape b hd L → 1 ≤ L →
      (∀ j, j < cnt → d ≤ iterPoolLen d L j + 2) →
      ∃ fss outs,
        multiLoop (AvgPool1d.mk d 2 1) (multiModel ndf n hd ps idx cnt) x y
          = Except.ok (fss, outs) ∧
        fss.length = cnt ∧ outs.length = cnt ∧
        ∀ i (hfi : i < fss.length) (hoi : i < outs.length)
          (hmi : i < (multiModel ndf n hd ps idx cnt).length),
          ∃ xi yi, downIter (AvgPool1d.mk d 2 1) i x = Except.ok xi ∧
            downIter (AvgPool1d.mk d 2 1) i y = Except.ok yi ∧
            ((multiModel ndf n hd ps idx cnt).get ⟨i, hmi⟩).forward xi yi
              = Except.ok (fss.get ⟨i, hfi⟩, outs.get ⟨i, hoi⟩) := by
  intro cnt
  induction cnt with
  | zero =>
      intro idx L x y hx hy hL _
      exact ⟨[], [], rfl, rfl, rfl, by intro i hfi; simp at hfi⟩
  | succ m ih =>
      intro idx L x y hx hy hL hval
      obtain ⟨fs0, xn, yn, sx, sy, s, _, _, _, _, hfwd, _, _, _, _, _, _, _⟩ :=
        msg_forward_ok ndf n hd (ps idx) b L x y hx hy hL
      have hvx : d ≤ x.length + 2 := by
        have := hval 0 (by omega)
        obtain ⟨_, _, hxl⟩ := hx
        simpa [iterPoolLen, hxl] using this
      have hvy : d ≤ y.length + 2 := by
        have := hval 0 (by omega)
        obtain ⟨_, _, hyl⟩ := hy
        simpa [iterPoolLen, hyl] using this
      obtain ⟨x1, hpx, hpxb, hpxc, hpxl⟩ := pool_ok d x hd2 hvx
      obtain ⟨y1, hpy, hpyb, hpyc, hpyl⟩ := pool_ok d y hd2 hvy
      obtain ⟨hxb, hxc, hxl⟩ := hx
      obtain ⟨hyb, hyc, hyl⟩ := hy
      obtain ⟨fss, outs, hloop, hflen, holen, hidxc⟩ :=
        ih (idx + 1) (poolLen d L) x1 y1 ⟨by omega, by omega, by rw [hpxl, hxl]⟩
          ⟨by omega, by omega, by rw [hpyl, hyl]⟩ (one_le_poolLen d L)
          (fun j hj => hval (j + 1) (by omega))
      refine ⟨fs0 :: fss, flatten12 s :: outs, ?_, by simp [hflen], by simp [holen], ?_⟩
      · simp only [multiModel]
        unfold multiLoop
        rw [hfwd, ok_bind]
        dsimp only
        rw [hpx, ok_bind, hpy, ok_bind, hloop, ok_bind]
        rfl
      · intro i hfi hoi hmi
        cases i with
        | zero => exact ⟨x, y, rfl, rfl, hfwd⟩
        | succ j =>
            obtain ⟨xj, yj, hdx, hdy, hj⟩ := hidxc j (by simpa using hfi) (by simpa using hoi)
              (by rw [multiModel_length]; rw [multiModel_length] at hmi; omega)
            refine ⟨xj, yj, ?_, ?_, ?_⟩
            · unfold downIter
              rw [hpx, ok_bind]
              exact hdx
            · unfold downIter
              rw [hpy, ok_bind]
              exact hdy
            · simp only [multiModel, List.get_cons_succ]
              exact hj

/-- Congruence for `Except` bind with pointwise-equal continuations. -/
theorem except_bind_congr {α β : Type} (e : Except String α) (f g : α → Except String β)
    (h : ∀ a, f a = g a) : (e >>= f) = (e >>= g) := by
  cases e with
  | error err => rfl
  | ok a => rw [ok_bind, ok_bind]; exact h a

/-- The claim-side chaining recursion coincides with the source loop. -/
theorem chainSpec_eq_msgLoop : ∀ (ds : List Dblock) (x y : Tensor3),
    chainSpec ds x y = msgLoop ds x y := by
  intro ds
  induction ds with
  | nil => intro x y; rfl
  | cons d rest ih =>
      intro x y
      unfold chainSpec msgLoop
      apply except_bind_congr
      rintro ⟨x1, y1⟩
      simp only [ih]

/-- `MSGDiscriminator.forward` (append the score to the feature list, then
return `features[:-1]` and flatten `features[-1]`) computes exactly the
claim-side description (feature list and flattened score directly). -/
theorem msg_forward_eq_spec (m : MSGDiscriminator) (x y : Tensor3) :
    m.forward x y = msgForwardSpec m x y := by
  unfold MSGDiscriminator.forward msgForwardSpec
  rw [chainSpec_eq_msgLoop]
  apply except_bind_congr
  rintro ⟨fs, xn, yn⟩
  apply except_bind_congr
  intro sx
  apply except_bind_congr
  intro sy
  apply except_bind_congr
  intro s
  dsimp only
  rw [List.dropLast_concat, List.getLastD_concat]

/-- Whenever the `MSGDiscriminator` loop succeeds, it yields one feature per
`Dblock`. -/
theorem msgLoop_length_eq : ∀ (ds : List Dblock) (x y : Tensor3) fs xn yn,
    msgLoop ds x y = Except.ok (fs, xn, yn) → fs.length = ds.length := by
  intro ds
  induction ds with
  | nil =>
      intro x y fs xn yn hmm
      simp only [msgLoop, Except.ok.injEq, Prod.mk.injEq] at hmm
      rw [← hmm.1]
      rfl
  | cons d rest ih =>
      intro x y fs xn yn hmm
      unfold msgLoop at hmm
      cases hd : d.forward x y with
      | error e => rw [hd, error_bind] at hmm; cases hmm
      | ok p =>
          obtain ⟨x1, y1⟩ := p
          rw [hd, ok_bind] at hmm
          dsimp only at hmm
          cases hrest : msgLoop rest x1 y1 with
          | error e => rw [hrest, error_bind] at hmm; cases hmm
          | ok q =>
              obtain ⟨fs2, xn2, yn2⟩ := q
              rw [hrest, ok_bind] at hmm
              dsimp only at hmm
              cases hmm
              have hlen2 := ih x1 y1 fs2 _ _ hrest
              simp only [List.length_cons]
              omega

/-- Inversion for a successful `Except` bind. -/
theorem bind_eq_ok {α β : Type} {e : Except String α} {f : α → Except String β} {v : β}
    (hbind : (e >>= f) = Except.ok v) : ∃ a, e = Except.ok a ∧ f a = Except.ok v := by
  cases e with
  | error err => cases hbind
  | ok a => exact ⟨a, rfl, hbind⟩

/-- Whenever `MSGDiscriminator.forward` succeeds, its feature list is exactly
the loop's feature list (the score is stripped back off). -/
theorem msg_forward_features_eq_loop (m : MSGDiscriminator) (x y : Tensor3)
    (fs : List Tensor3) (s : Tensor2) (hfwd : m.forward x y = Except.ok (fs, s)) :
    ∃ xn yn, msgLoop m.layers x y = Except.ok (fs, xn, yn) := by
  unfold MSGDiscriminator.forward at hfwd
  obtain ⟨⟨fs0, xn, yn⟩, hl, h1⟩ := bind_eq_ok hfwd
  obtain ⟨sx, hsx, h2⟩ := bind_eq_ok h1
  obtain ⟨sy, hsy, h3⟩ := bind_eq_ok h2
  obtain ⟨s0, hs0, h4⟩ := bind_eq_ok h3
  dsimp only at h4
  rw [List.dropLast_concat] at h4
  cases h4
  exact ⟨xn, yn, hl⟩

/-! ## The claims -/

/-- Claim C6: for every `Dblock(input_dim, output_dim, hidden_dim)` and inputs
`spec : (b, input_dim, L)`, `cond : (b, hidden_dim, L)` (with the implicit
validity condition `L ≥ 1` of the framework's convolution), forward returns
two tensors of shapes `(b, output_dim, L)` and `(b, hidden_dim, L)`; every
convolution in the block uses kernel size 3, stride 1, padding 1, and the
sequence length is preserved. -/
theorem dblock_forward_shape_correct (input_dim output_dim hidden_dim b L : ℕ)
    (p : DblockParams) (spec cond : Tensor3) (hs : spec.HasShape b input_dim L)
    (hc : cond.HasShape b hidden_dim L) (hL : 1 ≤ L) :
    ((Dblock.make input_dim output_dim hidden_dim p).input_spec.kernel_size = 3 ∧
      (Dblock.make input_dim output_dim hidden_dim p).input_spec.stride = 1 ∧
      (Dblock.make input_dim output_dim hidden_dim p).input_spec.padding = 1) ∧
    ((Dblock.make input_dim output_dim hidden_dim p).input_cond.kernel_size = 3 ∧
      (Dblock.make input_dim output_dim hidden_dim p).input_cond.stride = 1 ∧
      (Dblock.make input_dim output_dim hidden_dim p).input_cond.padding = 1) ∧
    ((Dblock.make input_dim output_dim hidden_dim p).output_spec_conv.kernel_size = 3 ∧
      (Dblock.make input_dim output_dim hidden_dim p).output_spec_conv.stride = 1 ∧
      (Dblock.make input_dim output_dim hidden_dim p).output_spec_conv.padding = 1) ∧
    ((Dblock.make input_dim output_dim hidden_dim p).output_cond_conv.kernel_size = 3 ∧
      (Dblock.make input_dim output_dim hidden_dim p).output_cond_conv.stride = 1 ∧
      (Dblock.make input_dim output_dim hidden_dim p).output_cond_conv.padding = 1) ∧
    ∃ r1 r2, (Dblock.make input_dim output_dim hidden_dim p).forward spec cond
        = Except.ok (r1, r2) ∧ r1.HasShape b output_dim L ∧ r2.HasShape b hidden_dim L := by
  refine ⟨⟨rfl, rfl, rfl⟩, ⟨rfl, rfl, rfl⟩, ⟨rfl, rfl, rfl⟩, ⟨rfl, rfl, rfl⟩, ?_⟩
  exact dblock_ok input_dim output_dim hidden_dim p spec cond b L hs hc hL

/-- Witness for C6: a `Dblock(2, 3, 4)` on `spec : (1, 2, 5)` and
`cond : (1, 4, 5)` returns shapes `(1, 3, 5)` and `(1, 4, 5)`. -/
theorem dblock_forward_shape_correct_witness :
    ∃ r1 r2, (Dblock.make 2 3 4 zeroDP).forward (zeros 1 2 5) (zeros 1 4 5)
        = Except.ok (r1, r2) ∧ r1.HasShape 1 3 5 ∧ r2.HasShape 1 4 5 :=
  (dblock_forward_shape_correct 2 3 4 1 5 zeroDP (zeros 1 2 5) (zeros 1 4 5)
    (hasShape_zeros 1 2 5) (hasShape_zeros 1 4 5) (by omega)).2.2.2.2

/-- Claim C4: `MSGDiscriminator.forward` is exactly the claim-side chaining
description `msgForwardSpec` (iterate the `Dblock`s in insertion order,
collect `[x_1, ..., x_n]`, and score `flatten(disc_spec(x_n) + disc_cond(y_n))`),
and on well-shaped inputs it succeeds, the feature list has `n_layers`
entries, and the score has shape `(batch, L)`. -/
theorem msg_forward_chain_correct (nf n_layers hidden_dim b L : ℕ) (ps : MSGParams)
    (x y : Tensor3) (hx : x.HasShape b nf L) (hy : y.HasShape b hidden_dim L)
    (hL : 1 ≤ L) (_hn : 1 ≤ n_layers) :
    (∀ u v, (MSGDiscriminator.make nf n_layers hidden_dim ps).forward u v
        = msgForwardSpec (MSGDiscriminator.make nf n_layers hidden_dim ps) u v) ∧
    ∃ fs xn yn sx sy s,
      chainSpec (MSGDiscriminator.make nf n_layers hidden_dim ps).layers x y
        = Except.ok (fs, xn, yn) ∧
      (MSGDiscriminator.make nf n_layers hidden_dim ps).disc_spec.forward xn = Except.ok sx ∧
      (MSGDiscriminator.make nf n_layers hidden_dim ps).disc_cond.forward yn = Except.ok sy ∧
      sx.add sy = Except.ok s ∧
      (MSGDiscriminator.make nf n_layers hidden_dim ps).forward x y
        = Except.ok (fs, flatten12 s) ∧
      fs.length = n_layers ∧ (flatten12 s).batch = b ∧ (flatten12 s).length = L := by
  refine ⟨fun u v => msg_forward_eq_spec _ u v, ?_⟩
  obtain ⟨fs, xn, yn, sx, sy, s, hloop, hsx, hsy, hs3, hfwd, hlen, _, _, _, hfb, hfl, _⟩ :=
    msg_forward_ok nf n_layers hidden_dim ps b L x y hx hy hL
  exact ⟨fs, xn, yn, sx, sy, s, by rw [chainSpec_eq_msgLoop]; exact hloop, hsx, hsy, hs3,
    hfwd, hlen, hfb, hfl⟩

/-- Witness for C4: `MSGDiscriminator(1, 1, 2)` on `x : (1, 1, 3)` and
`y : (1, 2, 3)` succeeds with 1 feature and a `(1, 3)` score. -/
theorem msg_forward_chain_correct_witness :
    ∃ fs xn yn sx sy s,
      chainSpec (MSGDiscriminator.make 1 1 2 zeroMP).layers (zeros 1 1 3) (zeros 1 2 3)
        = Except.ok (fs, xn, yn) ∧
      (MSGDiscriminator.make 1 1 2 zeroMP).disc_spec.forward xn = Except.ok sx ∧
      (MSGDiscriminator.make 1 1 2 zeroMP).disc_cond.forward yn = Except.ok sy ∧
      sx.add sy = Except.ok s ∧
      (MSGDiscriminator.make 1 1 2 zeroMP).forward (zeros 1 1 3) (zeros 1 2 3)
        = Except.ok (fs, flatten12 s) ∧
      fs.length = 1 ∧ (flatten12 s).batch = 1 ∧ (flatten12 s).length = 3 :=
  (msg_forward_chain_correct 1 1 2 1 3 zeroMP (zeros 1 1 3) (zeros 1 2 3)
    (hasShape_zeros 1 1 3) (hasShape_zeros 1 2 3) (by omega) (by omega)).2

/-- Claim C9: the feature list returned by `MSGDiscriminator.forward` has
exactly `n_layers` entries — one per `Dblock`, in insertion order — and the
score tensor is returned separately, not inside the feature list; the
docstring's "list of 6 features" is wrong, and with the default
`n_layers = 4` the list has 4 elements.  The last conjunct states the
feature count for every successful run of the default-width discriminator. -/
theorem msg_feature_count_correct (nf n_layers hidden_dim b L : ℕ) (ps : MSGParams)
    (x y : Tensor3) (hx : x.HasShape b nf L) (hy : y.HasShape b hidden_dim L)
    (hL : 1 ≤ L) :
    (MSGDiscriminator.make nf n_layers hidden_dim ps).layers.length = n_layers ∧
    (∃ fs xn yn s, msgLoop (MSGDiscriminator.make nf n_layers hidden_dim ps).layers x y
        = Except.ok (fs, xn, yn) ∧
      (MSGDiscriminator.make nf n_layers hidden_dim ps).forward x y = Except.ok (fs, s) ∧
      fs.length = n_layers ∧ (n_layers = 4 → fs.length ≠ 6)) ∧
    (∀ (ps4 : MSGParams) (u v : Tensor3) (fs4 : List Tensor3) (s4 : Tensor2),
      (MSGDiscriminator.make 80 4 256 ps4).forward u v = Except.ok (fs4, s4) →
      fs4.length = 4 ∧ fs4.length ≠ 6) := by
  refine ⟨msgLayers_length hidden_dim ps.dps n_layers nf 0, ?_, ?_⟩
  · obtain ⟨fs, xn, yn, sx, sy, s, hloop, _, _, _, hfwd, hlen, _, _, _, _, _, _⟩ :=
      msg_forward_ok nf n_layers hidden_dim ps b L x y hx hy hL
    exact ⟨fs, xn, yn, flatten12 s, hloop, hfwd, hlen, by omega⟩
  · intro ps4 u v fs4 s4 hfwd4
    obtain ⟨xn, yn, hl⟩ := msg_forward_features_eq_loop _ u v fs4 s4 hfwd4
    have hlen := msgLoop_length_eq _ u v fs4 xn yn hl
    have hml : (MSGDiscriminator.make 80 4 256 ps4).layers.length = 4 :=
      msgLayers_length 256 ps4.dps 4 80 0
    omega

/-- Witness for C9: the default-shape `MSGDiscriminator(80, 4, 256)` on
`x : (1, 80, 2)`, `y : (1, 256, 2)` returns 4 features, not 6. -/
theorem msg_feature_count_correct_witness :
    ∃ fs xn yn s, msgLoop (MSGDiscriminator.make 80 4 256 zeroMP).layers
        (zeros 1 80 2) (zeros 1 256 2) = Except.ok (fs, xn, yn) ∧
      (MSGDiscriminator.make 80 4 256 zeroMP).forward (zeros 1 80 2) (zeros 1 256 2)
        = Except.ok (fs, s) ∧
      fs.length = 4 ∧ (4 = 4 → fs.length ≠ 6) :=
  (msg_feature_count_correct 80 4 256 1 2 zeroMP (zeros 1 80 2) (zeros 1 256 2)
    (hasShape_zeros 1 80 2) (hasShape_zeros 1 256 2) (by omega)).2.1

/-- Claim C10: in `MSGDiscriminator(nf, n_layers, hidden_dim)` the channel
counts double layer by layer — the `k`-th `Dblock` (0-indexed) maps
`nf * 2^k` spec channels to `nf * 2^(k+1)`, so feature `k` has `nf * 2^(k+1)`
channels; the condition stream enters and leaves every `Dblock` with
`hidden_dim` channels; and the heads `disc_spec` and `disc_cond` consume
`nf * 2^n_layers` and `hidden_dim` channels respectively, producing 1 each. -/
theorem msg_channel_doubling_invariant (nf n_layers hidden_dim b L : ℕ) (ps : MSGParams)
    (x y : Tensor3) (hx : x.HasShape b nf L) (hy : y.HasShape b hidden_dim L)
    (hL : 1 ≤ L) :
    (MSGDiscriminator.make nf n_layers hidden_dim ps).layers.length = n_layers ∧
    (∀ k (hk : k < (MSGDiscriminator.make nf n_layers hidden_dim ps).layers.length),
      ((MSGDiscriminator.make nf n_layers hidden_dim ps).layers.get
          ⟨k, hk⟩).input_spec.in_channels = nf * 2 ^ k ∧
      ((MSGDiscriminator.make nf n_layers hidden_dim ps).layers.get
          ⟨k, hk⟩).input_spec.out_channels = nf * 2 ^ (k + 1) ∧
      ((MSGDiscriminator.make nf n_layers hidden_dim ps).layers.get
          ⟨k, hk⟩).output_spec_conv.out_channels = nf * 2 ^ (k + 1) ∧
      ((MSGDiscriminator.make nf n_layers hidden_dim ps).layers.get
          ⟨k, hk⟩).input_cond.in_channels = hidden_dim ∧
      ((MSGDiscriminator.make nf n_layers hidden_dim ps).layers.get
          ⟨k, hk⟩).output_cond_conv.out_channels = hidden_dim) ∧
    (MSGDiscriminator.make nf n_layers hidden_dim ps).disc_spec.in_channels
      = nf * 2 ^ n_layers ∧
    (MSGDiscriminator.make nf n_layers hidden_dim ps).disc_spec.out_channels = 1 ∧
    (MSGDiscriminator.make nf n_layers hidden_dim ps).disc_cond.in_channels = hidden_dim ∧
    (MSGDiscriminator.make nf n_layers hidden_dim ps).disc_cond.out_channels = 1 ∧
    ∃ fs xn yn, msgLoop (MSGDiscriminator.make nf n_layers hidden_dim ps).layers x y
        = Except.ok (fs, xn, yn) ∧
      (∀ k (hk : k < fs.length), (fs.get ⟨k, hk⟩).channels = nf * 2 ^ (k + 1)) ∧
      xn.channels = nf * 2 ^ n_layers ∧ yn.channels = hidden_dim := by
  refine ⟨msgLayers_length hidden_dim ps.dps n_layers nf 0, ?_, ?_, rfl, rfl, rfl, ?_⟩
  · intro k hk
    have hlg : (MSGDiscriminator.make nf n_layers hidden_dim ps).layers.get ⟨k, hk⟩
        = Dblock.make (finalNf nf k) (finalNf nf k * 2) hidden_dim (ps.dps (0 + k)) :=
      msgLayers_get hidden_dim ps.dps n_layers nf 0 k hk
    rw [hlg]
    have hpow : finalNf nf k * 2 = nf * 2 ^ (k + 1) := by
      rw [finalNf_eq, pow_succ]; ring
    exact ⟨finalNf_eq nf k, hpow, hpow, rfl, rfl⟩
  · show finalNf nf n_layers = nf * 2 ^ n_layers
    exact finalNf_eq nf n_layers
  · obtain ⟨fs, xn, yn, sx, sy, s, hloop, _, _, _, _, _, hxn, hyn, _, _, _, hfeat⟩ :=
      msg_forward_ok nf n_layers hidden_dim ps b L x y hx hy hL
    refine ⟨fs, xn, yn, hloop, ?_, ?_, hyn.2.1⟩
    · intro k hk
      have := (hfeat k hk).2.1
      rw [finalNf_eq] at this
      exact this
    · have := hxn.2.1
      rw [finalNf_eq] at this
      exact this

/-- Witness for C10: `MSGDiscriminator(1, 2, 3)` on `x : (1, 1, 2)`,
`y : (1, 3, 2)` — features have 2 and 4 channels, the heads consume 4 and 3
channels. -/
theorem msg_channel_doubling_invariant_witness :
    ∃ fs xn yn, msgLoop (MSGDiscriminator.make 1 2 3 zeroMP).layers
        (zeros 1 1 2) (zeros 1 3 2) = Except.ok (fs, xn, yn) ∧
      (∀ k (hk : k < fs.length), (fs.get ⟨k, hk⟩).channels = 1 * 2 ^ (k + 1)) ∧
      xn.channels = 1 * 2 ^ 2 ∧ yn.channels = 3 :=
  (msg_channel_doubling_invariant 1 2 3 1 2 zeroMP (zeros 1 1 2) (zeros 1 3 2)
    (hasShape_zeros 1 1 2) (hasShape_zeros 1 3 2) (by omega)).2.2.2.2.2.2

/-- Claim C5: every sub-discriminator of
`MultiMSGDiscriminator(num_D, ndf, n_layers, d, hidden_dim)` is an
`MSGDiscriminator(ndf, n_layers, hidden_dim)`, and on well-shaped inputs
(whose lengths stay large enough for the pooling kernel at every scale)
`forward` returns `num_D` feature lists and `num_D` scores, the `i`-th pair
being sub-discriminator `i` applied to `x` and `y` each downsampled `i`
times. -/
theorem multimsg_forward_multiscale_correct (num_D ndf n_layers d hidden_dim b L : ℕ)
    (ps : ℕ → MSGParams) (x y : Tensor3) (_hnum : 1 ≤ num_D)
    (hx : x.HasShape b ndf L) (hy : y.HasShape b hidden_dim L) (hL : 1 ≤ L)
    (hd2 : 2 ≤ d) (hval : ∀ j, j < num_D → d ≤ iterPoolLen d L j + 2) :
    (MultiMSGDiscriminator.make num_D ndf n_layers d hidden_dim ps).model.length = num_D ∧
    (∀ i (hi : i < (MultiMSGDiscriminator.make num_D ndf n_layers d hidden_dim ps).model.length),
      (MultiMSGDiscriminator.make num_D ndf n_layers d hidden_dim ps).model.get ⟨i, hi⟩
        = MSGDiscriminator.make ndf n_layers hidden_dim (ps i)) ∧
    ∃ features outputs,
      (MultiMSGDiscriminator.make num_D ndf n_layers d hidden_dim ps).forward x y
        = Except.ok (features, outputs) ∧
      features.length = num_D ∧ outputs.length = num_D ∧
      ∀ i (hfi : i < features.length) (hoi : i < outputs.length)
        (hmi : i < (MultiMSGDiscriminator.make num_D ndf n_layers d hidden_dim ps).model.length),
        ∃ xi yi,
          downIter (MultiMSGDiscriminator.make num_D ndf n_layers d hidden_dim ps).downsample
            i x = Except.ok xi ∧
          downIter (MultiMSGDiscriminator.make num_D ndf n_layers d hidden_dim ps).downsample
            i y = Except.ok yi ∧
          ((MultiMSGDiscriminator.make num_D ndf n_layers d hidden_dim ps).model.get
              ⟨i, hmi⟩).forward xi yi
            = Except.ok (features.get ⟨i, hfi⟩, outputs.get ⟨i, hoi⟩) := by
  obtain ⟨fss, outs, hloop, hflen, holen, hidxc⟩ :=
    multiLoop_ok ndf n_layers hidden_dim ps d b hd2 num_D 0 L x y hx hy hL hval
  refine ⟨multiModel_length ndf n_layers hidden_dim ps num_D 0, ?_, fss, outs, hloop,
    hflen, holen, hidxc⟩
  intro i hi
  have hg : (MultiMSGDiscriminator.make num_D ndf n_layers d hidden_dim ps).model.get ⟨i, hi⟩
      = MSGDiscriminator.make ndf n_layers hidden_dim (ps (0 + i)) :=
    multiModel_get ndf n_layers hidden_dim ps num_D 0 i hi
  rw [hg, Nat.zero_add]

/-- Witness for C5: `MultiMSGDiscriminator(2, 1, 1, 2, 3)` on `x : (1, 1, 2)`
and `y : (1, 3, 2)`. -/
theorem multimsg_forward_multiscale_correct_witness :
    ∃ features outputs,
      (MultiMSGDiscriminator.make 2 1 1 2 3 (fun _ => zeroMP)).forward
        (zeros 1 1 2) (zeros 1 3 2) = Except.ok (features, outputs) ∧
      features.length = 2 ∧ outputs.length = 2 ∧
      ∀ i (hfi : i < features.length) (hoi : i < outputs.length)
        (hmi : i < (MultiMSGDiscriminator.make 2 1 1 2 3 (fun _ => zeroMP)).model.length),
        ∃ xi yi,
          downIter (MultiMSGDiscriminator.make 2 1 1 2 3 (fun _ => zeroMP)).downsample
            i (zeros 1 1 2) = Except.ok xi ∧
          downIter (MultiMSGDiscriminator.make 2 1 1 2 3 (fun _ => zeroMP)).downsample
            i (zeros 1 3 2) = Except.ok yi ∧
          ((MultiMSGDiscriminator.make 2 1 1 2 3 (fun _ => zeroMP)).model.get
              ⟨i, hmi⟩).forward xi yi
            = Except.ok (features.get ⟨i, hfi⟩, outputs.get ⟨i, hoi⟩) :=
  (multimsg_forward_multiscale_correct 2 1 1 2 3 1 2 (fun _ => zeroMP)
    (zeros 1 1 2) (zeros 1 3 2) (by omega) (hasShape_zeros 1 1 2) (hasShape_zeros 1 3 2)
    (by omega) (by omega) (by decide)).2.2

/-- Claim C7: the repository raises no exception type of its own — every
failure in the embedding is a framework error value — and under
shape-compatible preconditions the forward passes of `Dblock`,
`MSGDiscriminator` and `MultiMSGDiscriminator` all complete without
raising. -/
theorem forwards_complete_without_raising
    (iD oD hD nfM nM hM numD ndfD nD dD hDD b1 b2 b3 L1 L2 L3 : ℕ)
    (p : DblockParams) (ps : MSGParams) (pss : ℕ → MSGParams)
    (spec cond x y u v : Tensor3)
    (h1 : spec.HasShape b1 iD L1) (h2 : cond.HasShape b1 hD L1) (hL1 : 1 ≤ L1)
    (h3 : x.HasShape b2 nfM L2) (h4 : y.HasShape b2 hM L2) (hL2 : 1 ≤ L2)
    (h5 : u.HasShape b3 ndfD L3) (h6 : v.HasShape b3 hDD L3) (hL3 : 1 ≤ L3)
    (hdd : 2 ≤ dD) (hval : ∀ j, j < numD → dD ≤ iterPoolLen dD L3 j + 2) :
    ((Dblock.make iD oD hD p).forward spec cond).isOk = true ∧
    ((MSGDiscriminator.make nfM nM hM ps).forward x y).isOk = true ∧
    ((MultiMSGDiscriminator.make numD ndfD nD dD hDD pss).forward u v).isOk = true := by
  refine ⟨?_, ?_, ?_⟩
  · obtain ⟨r1, r2, hfwd, _, _⟩ := dblock_ok iD oD hD p spec cond b1 L1 h1 h2 hL1
    rw [hfwd]
    rfl
  · obtain ⟨fs, xn, yn, sx, sy, s, _, _, _, _, hfwd, _, _, _, _, _, _, _⟩ :=
      msg_forward_ok nfM nM hM ps b2 L2 x y h3 h4 hL2
    rw [hfwd]
    rfl
  · obtain ⟨fss, outs, hloop, _, _, _⟩ :=
      multiLoop_ok ndfD nD hDD pss dD b3 hdd numD 0 L3 u v h5 h6 hL3 hval
    have hfwd : (MultiMSGDiscriminator.make numD ndfD nD dD hDD pss).forward u v
        = Except.ok (fss, outs) := hloop
    rw [hfwd]
    rfl

/-- Witness for C7 at concrete shapes: Dblock(1,2,3) on (1,1,4)/(1,3,4),
MSGDiscriminator(1,1,2) on (1,1,3)/(1,2,3), MultiMSGDiscriminator(2,1,1,2,3)
on (1,1,2)/(1,3,2). -/
theorem forwards_complete_without_raising_witness :
    ((Dblock.make 1 2 3 zeroDP).forward (zeros 1 1 4) (zeros 1 3 4)).isOk = true ∧
    ((MSGDiscriminator.make 1 1 2 zeroMP).forward (zeros 1 1 3) (zeros 1 2 3)).isOk = true ∧
    ((MultiMSGDiscriminator.make 2 1 1 2 3 (fun _ => zeroMP)).forward
      (zeros 1 1 2) (zeros 1 3 2)).isOk = true :=
  forwards_complete_without_raising 1 2 3 1 1 2 2 1 1 2 3 1 1 1 4 3 2
    zeroDP zeroMP (fun _ => zeroMP) (zeros 1 1 4) (zeros 1 3 4) (zeros 1 1 3)
    (zeros 1 2 3) (zeros 1 1 2) (zeros 1 3 2)
    (hasShape_zeros 1 1 4) (hasShape_zeros 1 3 4) (by omega)
    (hasShape_zeros 1 1 3) (hasShape_zeros 1 2 3) (by omega)
    (hasShape_zeros 1 1 2) (hasShape_zeros 1 3 2) (by omega)
    (by omega) (by decide)

/-- Claim C8: no forward call modifies a module parameter, buffer or other
module attribute (the threaded module comes back unchanged for every module
class of the file), and consequently a second forward call on the returned
module state with equal inputs returns an equal output. -/
theorem forward_frame_and_determinism (db : Dblock) (msg : MSGDiscriminator)
    (mm : MultiMSGDiscriminator) (mg : MelGANDiscriminator)
    (msd : MultiScaleDiscriminator) (spec cond x y z : Tensor3) :
    ((db.forwardSt spec cond).2 = db ∧
      ((db.forwardSt spec cond).2.forwardSt spec cond).1 = (db.forwardSt spec cond).1) ∧
    ((msg.forwardSt x y).2 = msg ∧
      ((msg.forwardSt x y).2.forwardSt x y).1 = (msg.forwardSt x y).1) ∧
    ((mm.forwardSt x y).2 = mm ∧
      ((mm.forwardSt x y).2.forwardSt x y).1 = (mm.forwardSt x y).1) ∧
    ((mg.forwardSt z).2 = mg ∧
      ((mg.forwardSt z).2.forwardSt z).1 = (mg.forwardSt z).1) ∧
    ((msd.forwardSt z).2 = msd ∧
      ((msd.forwardSt z).2.forwardSt z).1 = (msd.forwardSt z).1) :=
  ⟨⟨rfl, rfl⟩, ⟨rfl, rfl⟩, ⟨rfl, rfl⟩, ⟨rfl, rfl⟩, ⟨rfl, rfl⟩⟩

/-- Claim C1 (failing run): `MultiScaleDiscriminator.forward` never returns —
its sub-discriminators are `MSGDiscriminator`s requiring a second input, but
the loop body calls `disc(x)` with a single tensor, so every forward call on
a discriminator with at least one sub-discriminator raises `TypeError`
instead of producing the claimed pair of `num_D`-element lists. -/
theorem multiscale_forward_raises (num_D ndf n_layers d hidden_dim : ℕ)
    (ps : ℕ → MSGParams) (hnum : 1 ≤ num_D) (x : Tensor3) :
    (MultiScaleDiscriminator.make num_D ndf n_layers d hidden_dim ps).forward x
      = Except.error "TypeError: forward missing 1 required positional argument: y" := by
  unfold MultiScaleDiscriminator.forward MultiScaleDiscriminator.make
  dsimp only
  rcases hnd : multiModel ndf n_layers hidden_dim ps 0 num_D with _ | ⟨a, l⟩
  · have hml := multiModel_length ndf n_layers hidden_dim ps num_D 0
    rw [hnd] at hml
    simp at hml
    omega
  · rfl

/-- Witness for C1: the default `MultiScaleDiscriminator(3, 80, 4, 2, 256)`
raises on a `(4, 80, 300)` input. -/
theorem multiscale_forward_raises_witness :
    (MultiScaleDiscriminator.make 3 80 4 2 256 (fun _ => zeroMP)).forward (zeros 4 80 300)
      = Except.error "TypeError: forward missing 1 required positional argument: y" :=
  multiscale_forward_raises 3 80 4 2 256 (fun _ => zeroMP) (by omega) (zeros 4 80 300)

/-- Claim C2 (failing run): `MelGANDiscriminator` with its default
hyperparameters `(input_dim=80, ndf=16, n_layers=3, disc_out=512)` cannot run
a forward pass: the construction loop never updates `nf`, so `layer_3`
outputs 16 channels while `layer_4` was built as
`Conv1d(min(16*2, 512) = 32, 512, ...)` — the framework raises a channel
mismatch on a well-shaped `(1, 80, 30)` input (and `layer_5` would likewise
expect 32 channels where `layer_4` outputs 512). -/
theorem melgan_default_forward_channel_mismatch :
    (MelGANDiscriminator.make 80 16 3 512 zeroP (fun _ => zeroP) zeroP zeroP).forward
        (zeros 1 80 30) = Except.error "channel mismatch" ∧
    (min (16 * 2) 512 : ℕ) = 32 ∧ (32 : ℕ) ≠ 16 := by
  exact ⟨rfl, rfl, by omega⟩

/-- Claim C3 (counterexample): with `downsampling_factor = 4` the downsample
layer of `MultiMSGDiscriminator` has stride 2, not 4, and maps a length-12
input to length 6 — not to `12 / 4 = 3` as the claim's "factor d" reading
requires.  The same pooling layer is shared by `MultiScaleDiscriminator`. -/
theorem downsample_stride_not_factor_counterexample :
    (MultiMSGDiscriminator.make 3 80 4 4 256 (fun _ => zeroMP)).downsample.stride = 2 ∧
    (MultiMSGDiscriminator.make 3 80 4 4 256 (fun _ => zeroMP)).downsample.stride ≠ 4 ∧
    Except.map Tensor3.length
      ((MultiMSGDiscriminator.make 3 80 4 4 256 (fun _ => zeroMP)).downsample.forward
        (zeros 1 80 12)) = Except.ok 6 ∧
    (12 : ℕ) / 4 = 3 ∧ (6 : ℕ) ≠ 3 ∧
    (MultiScaleDiscriminator.make 3 80 4 4 256 (fun _ => zeroMP)).downsample.stride = 2 :=
  ⟨rfl, by decide, rfl, rfl, by omega, rfl⟩

/-- Claim C3 (amended): the `downsample` layer of both multi-scale wrappers
is `AvgPool1d(kernel_size = downsampling_factor, stride = 2, padding = 1)`;
for every `d ≥ 2` and input length `L` with `d ≤ L + 2` it maps length `L` to
`(L + 2 - d) / 2 + 1` — the length is (roughly) halved for every `d`, and it
changes by the factor `d` only when `d = 2`. -/
theorem downsample_kernel_factor_stride_two (num_D ndf n_layers d hidden_dim : ℕ)
    (ps : ℕ → MSGParams) (x : Tensor3) (hd2 : 2 ≤ d) (hdL : d ≤ x.length + 2) :
    (MultiMSGDiscriminator.make num_D ndf n_layers d hidden_dim ps).downsample.kernel_size
      = d ∧
    (MultiMSGDiscriminator.make num_D ndf n_layers d hidden_dim ps).downsample.stride = 2 ∧
    (MultiScaleDiscriminator.make num_D ndf n_layers d hidden_dim ps).downsample.kernel_size
      = d ∧
    (MultiScaleDiscriminator.make num_D ndf n_layers d hidden_dim ps).downsample.stride = 2 ∧
    ∃ y, (MultiMSGDiscriminator.make num_D ndf n_layers d hidden_dim ps).downsample.forward x
        = Except.ok y ∧ y.length = (x.length + 2 - d) / 2 + 1 := by
  refine ⟨rfl, rfl, rfl, rfl, ?_⟩
  obtain ⟨y, hp, _, _, hl⟩ := pool_ok d x hd2 hdL
  exact ⟨y, hp, by rw [hl]; rfl⟩

/-- Witness for C3 (amended) at `d = 4`, `L = 12`: output length
`(12 + 2 - 4) / 2 + 1 = 6`. -/
theorem downsample_kernel_factor_stride_two_witness :
    ∃ y, (MultiMSGDiscriminator.make 3 80 4 4 256 (fun _ => zeroMP)).downsample.forward
        (zeros 1 80 12) = Except.ok y ∧ y.length = (12 + 2 - 4) / 2 + 1 :=
  (downsample_kernel_factor_stride_two 3 80 4 4 256 (fun _ => zeroMP) (zeros 1 80 12)
    (by omega) (by decide)).2.2.2.2

end Disc
